import Mathlib

set_option maxRecDepth 10000

/-!
# Verification of the live compile-preview pipeline

Shallow embedding of `src/app/page.tsx`: the `Home` component's state
(`code`, `output`, `isCompiling`), the `runCode` compile procedure
(try / transform / catch / finally), the debounced `useEffect` scheduler,
the manual Compile button, the Monaco `onChange` coercion and the sandboxed
preview `iframe`.  The Babel `transform` function is an external collaborator
and is modelled as an opaque parameter (`Engine`): it receives the source
text and the preset configuration and either returns transformed code or
throws a value.
-/

namespace Playground

/-- A value thrown by the transformation engine: either a genuine `Error`
instance carrying a message, or some other thrown value (the
`error instanceof Error` test in the catch branch distinguishes the two). -/
inductive ThrownValue where
  | errorInstance (message : String) : ThrownValue
  | otherValue : ThrownValue
deriving DecidableEq, Repr

/-- The options object passed to `transform`. -/
structure TransformConfig where
  presets : List String
deriving DecidableEq, Repr

/-- The `transform` boundary of `@babel/standalone`: source text and
configuration in, transformed code out, or a thrown value. -/
def Engine : Type := String → TransformConfig → Except ThrownValue String

/-- The configuration `runCode` passes: `{ presets: ['react', 'env'] }`. -/
def babelConfig : TransformConfig := { presets := ["react", "env"] }

/-- The `useState` cells of the `Home` component. -/
structure HomeState where
  code : String
  output : String
  isCompiling : Bool
deriving DecidableEq, Repr

/-- The `defaultCode` template literal (initial editor contents). -/
def defaultCode : String :=
  "function App() \x7b\n  const [count, setCount] = useState(0);\n\n  return (\n    <div style=\x7b\x7b padding: \x2720px\x27 \x7d\x7d>\n      <h1>Hello from React Playground!</h1>\n      <button onClick=\x7b() => setCount(count + 1)\x7d>\n        Count: \x7bcount\x7d\n      </button>\n    </div>\n  );\n\x7d"

/-- The part of the `iframeContent` template literal before
`\x24\x7btranspiledCode\x7d`. -/
def docPre : String :=
  "\n        <!DOCTYPE html>\n        <html>\n          <head>\n            <script crossorigin src=\"https://unpkg.com/react@18/umd/react.development.js\"></script>\n            <script crossorigin src=\"https://unpkg.com/react-dom@18/umd/react-dom.development.js\"></script>\n            <script src=\"https://unpkg.com/@babel/standalone/babel.min.js\"></script>\n            <style>\n              body \x7b margin: 0; padding: 20px; font-family: system-ui, -apple-system, sans-serif; \x7d\n            </style>\n          </head>\n          <body>\n            <div id=\"root\"></div>\n            <script type=\"text/babel\">\n              const \x7b useState \x7d = React;\n              "

/-- The part of the `iframeContent` template literal after
`\x24\x7btranspiledCode\x7d`. -/
def docSuf : String :=
  "\n              const root = ReactDOM.createRoot(document.getElementById(\x27root\x27));\n              root.render(<App />);\n            </script>\n          </body>\n        </html>\n      "

/-- The success-shaped `iframeContent` document built by `runCode` around the
transpiled code. -/
def iframeContent (transpiledCode : String) : String :=
  docPre ++ transpiledCode ++ docSuf

/-- The part of the error document template literal before
`\x24\x7berrorMessage\x7d`. -/
def errDocPre : String :=
  "\n        <!DOCTYPE html>\n        <html>\n          <body>\n            <div style=\"color: red; padding: 20px;\">\n              <h3>Error:</h3>\n              <pre>"

/-- The part of the error document template literal after
`\x24\x7berrorMessage\x7d`. -/
def errDocSuf : String :=
  "</pre>\n            </div>\n          </body>\n        </html>\n      "

/-- The error-shaped document built in the catch branch. -/
def errorDocument (errorMessage : String) : String :=
  errDocPre ++ errorMessage ++ errDocSuf

/-- `error instanceof Error ? error.message : 'An unknown error occurred'`. -/
def errorMessageOf : ThrownValue → String
  | .errorInstance m => m
  | .otherValue => "An unknown error occurred"

/-- The try/catch body of `runCode`: set `isCompiling`, invoke the engine on
the current code with `babelConfig`, and publish either the success-shaped or
the error-shaped output document. -/
def runCodeBody (engine : Engine) (s : HomeState) : HomeState :=
  let s1 : HomeState := { s with isCompiling := true }
  match engine s1.code babelConfig with
  | Except.ok transpiledCode => { s1 with output := iframeContent transpiledCode }
  | Except.error e => { s1 with output := errorDocument (errorMessageOf e) }

/-- The `finally` block of `runCode`: `setIsCompiling(false)`, run
unconditionally after the body, whichever branch it took. -/
def runCodeFinally (s : HomeState) : HomeState :=
  { s with isCompiling := false }

/-- The whole `runCode` compile procedure: body, then the guaranteed-run
`finally` cleanup. -/
def runCode (engine : Engine) (s : HomeState) : HomeState :=
  runCodeFinally (runCodeBody engine s)

/-- The Compile button: `disabled=\x7bisCompiling\x7d`, `onClick=\x7brunCode\x7d`.
A click while `isCompiling` is a no-op; otherwise it runs `runCode`.  The
`Nat` component is a ghost counter of compile-procedure executions. -/
def clickCompile (engine : Engine) (s : HomeState) (execCount : Nat) :
    HomeState × Nat :=
  if s.isCompiling then (s, execCount)
  else (runCode engine s, execCount + 1)

/-- The editor `onChange` handler's coercion: `setCode(value || '')`. -/
def onChangeValue : Option String → String
  | none => ""
  | some v => if v = "" then "" else v

/-- The attributes of the preview `iframe` element. -/
structure IFrameProps where
  srcDoc : String
  title : String
  sandbox : String
deriving DecidableEq, Repr

/-- The preview `iframe` as rendered from the published output. -/
def previewFrame (output : String) : IFrameProps :=
  { srcDoc := output, title := "output", sandbox := "allow-scripts" }

/-! ## The debounce scheduler

The `useEffect` with dependency `[code]` arms a 1000ms `setTimeout(runCode)`
on every buffer update and its cleanup clears the previous timer.  We model
wall-clock time as a `Nat` of milliseconds, the pending timer as its absolute
deadline, and keep a ghost log of the source texts on which the compile
procedure actually executed. -/

/-- Scheduler state: component state, pending timer deadline (if armed), and
the ghost log of compiled source texts. -/
structure SchedState where
  home : HomeState
  timer : Option Nat
  execs : List String
deriving DecidableEq, Repr

/-- The pending timer fires: `runCode` executes on the current buffer. -/
def fireTimer (engine : Engine) (s : SchedState) : SchedState :=
  match s.timer with
  | some _ =>
      { s with
        home := runCode engine s.home
        timer := none
        execs := s.execs ++ [s.home.code] }
  | none => s

/-- At time `t`, fire the pending timer if its deadline has passed. -/
def fireIfDue (engine : Engine) (t : Nat) (s : SchedState) : SchedState :=
  match s.timer with
  | some d => if d ≤ t then fireTimer engine s else s
  | none => s

/-- A buffer update at time `t`: any timer already due has fired beforehand;
the effect cleanup clears the pending timer and arms a fresh one expiring at
`t + 1000`, and the buffer holds the new text. -/
def applyEdit (engine : Engine) (t : Nat) (txt : String) (s : SchedState) :
    SchedState :=
  let s1 := fireIfDue engine t s
  { s1 with home := { s1.home with code := txt }, timer := some (t + 1000) }

/-- Process a time-stamped list of buffer updates. -/
def runEdits (engine : Engine) : List (Nat × String) → SchedState → SchedState
  | [], s => s
  | (t, txt) :: rest, s => runEdits engine rest (applyEdit engine t txt s)

/-- Let enough time pass that any pending timer fires. -/
def flushTimer (engine : Engine) (s : SchedState) : SchedState :=
  fireTimer engine s

/-- `gapsOk t edits` holds when every update in `edits` comes less than
1000ms after the previous one, the first less than 1000ms after time `t`. -/
def gapsOk : Nat → List (Nat × String) → Bool
  | _, [] => true
  | t, (t1, _) :: rest => decide (t1 < t + 1000) && gapsOk t1 rest

/-- The last update of a nonempty update sequence (head passed separately). -/
def lastEdit : Nat × String → List (Nat × String) → Nat × String
  | p, [] => p
  | _, q :: rest => lastEdit q rest

/-- Substring containment, on the underlying character lists. -/
abbrev strContains (s pat : String) : Prop := pat.data <:+: s.data

/-- The three runtime bootstrap script tags of the success-shaped document:
the UI runtime, its DOM-binding companion, and the in-sandbox copy of the
transformation engine. -/
def bootstrapScriptTags : List String :=
  ["<script crossorigin src=\"https://unpkg.com/react@18/umd/react.development.js\"></script>",
   "<script crossorigin src=\"https://unpkg.com/react-dom@18/umd/react-dom.development.js\"></script>",
   "<script src=\"https://unpkg.com/@babel/standalone/babel.min.js\"></script>"]

/-- The head of `docPre` up to the opening of the in-sandbox script element. -/
def docPreHead : String :=
  "\n        <!DOCTYPE html>\n        <html>\n          <head>\n            <script crossorigin src=\"https://unpkg.com/react@18/umd/react.development.js\"></script>\n            <script crossorigin src=\"https://unpkg.com/react-dom@18/umd/react-dom.development.js\"></script>\n            <script src=\"https://unpkg.com/@babel/standalone/babel.min.js\"></script>\n            <style>\n              body \x7b margin: 0; padding: 20px; font-family: system-ui, -apple-system, sans-serif; \x7d\n            </style>\n          </head>\n          <body>\n            <div id=\"root\"></div>\n            "

/-- The opening tag of the script element whose body the sandbox re-lowers. -/
def scriptBabelOpen : String := "<script type=\"text/babel\">"

/-- The bootstrap line between the script opening tag and the embedded code. -/
def docPreBoot : String := "\n              const \x7b useState \x7d = React;\n              "

/-- The script-body lines after the embedded code, up to the closing tag. -/
def docSufBody : String :=
  "\n              const root = ReactDOM.createRoot(document.getElementById(\x27root\x27));\n              root.render(<App />);\n            "

/-- The markup after the in-sandbox script element is closed. -/
def docSufClose : String := "\n          </body>\n        </html>\n      "

/-- `errDocPre` without its trailing `<pre>` opening tag. -/
def errDocPreHead : String :=
  "\n        <!DOCTYPE html>\n        <html>\n          <body>\n            <div style=\"color: red; padding: 20px;\">\n              <h3>Error:</h3>\n              "

/-- `errDocSuf` without its leading `</pre>` closing tag. -/
def errDocSufTail : String :=
  "\n            </div>\n          </body>\n        </html>\n      "

/-- A concrete engine that accepts every source (echoes it back). -/
def okEngine : Engine := fun src _ => Except.ok src

/-- A concrete engine that rejects every source by throwing `v`. -/
def errEngine (v : ThrownValue) : Engine := fun _ _ => Except.error v

/-! ## Helper lemmas -/

theorem occurs_append_left {α : Type*} {l a b : List α} (h : l <:+: a) :
    l <:+: a ++ b :=
  h.trans ⟨[], b, by simp⟩

theorem occurs_append_right {α : Type*} {l a b : List α} (h : l <:+: b) :
    l <:+: a ++ b :=
  h.trans ⟨a, [], by simp⟩

theorem occurs_middle {α : Type*} (a m b : List α) : m <:+: a ++ (m ++ b) :=
  ⟨a, b, by simp⟩

/-- An infix of an append lies in the left part, in the right part, or
straddles the boundary: a nonempty suffix of the left part glued to a
nonempty prefix of the right part. -/
theorem occurs_append_cases {α : Type*} {t a b : List α} (h : t <:+: a ++ b) :
    t <:+: a ∨ t <:+: b ∨
    ∃ t₁ t₂, t₁ ++ t₂ = t ∧ t₁ ≠ [] ∧ t₂ ≠ [] ∧ t₁ <:+ a ∧ t₂ <+: b := by
  obtain ⟨s, u, hsu⟩ := h
  rw [List.append_assoc] at hsu
  rcases List.append_eq_append_iff.mp hsu with ⟨a', ha, hb⟩ | ⟨c', _, hb⟩
  · rcases List.append_eq_append_iff.mp hb with ⟨x, hx, _⟩ | ⟨y, ht, hb'⟩
    · exact Or.inl ⟨s, x, by rw [ha, hx, List.append_assoc]⟩
    · by_cases ha' : a' = []
      · subst ha'
        simp only [List.nil_append] at ht
        exact Or.inr (Or.inl ⟨[], u, by rw [hb', ← ht]; simp⟩)
      · by_cases hy : y = []
        · subst hy
          simp only [List.append_nil] at ht
          exact Or.inl ⟨s, [], by rw [ha, ht]; simp⟩
        · exact Or.inr (Or.inr ⟨a', y, ht.symm, ha', hy, ⟨s, ha.symm⟩, ⟨u, hb'.symm⟩⟩)
  · exact Or.inr (Or.inl ⟨c', u, by rw [hb, List.append_assoc]⟩)

/-- `t` cannot occur in `pre ++ msg ++ suf` when it occurs in none of the
pieces, no nonempty prefix of `t` is a suffix of `pre`, and no nonempty
proper suffix of `t` is a prefix of `suf`. -/
theorem sandwich_free {α : Type*} {t pre suf msg : List α}
    (hmsg : ¬ t <:+: msg) (hpre : ¬ t <:+: pre) (hsuf : ¬ t <:+: suf)
    (hc : ∀ i < t.length + 1, 0 < i → ¬ (t.take i <:+ pre))
    (hd : ∀ j < t.length, 0 < j → ¬ (t.drop j <+: suf)) :
    ¬ t <:+: pre ++ (msg ++ suf) := by
  intro h
  rcases occurs_append_cases h with h1 | h2 | ⟨t₁, t₂, heq, hne1, _, hsfx, _⟩
  · exact hpre h1
  · rcases occurs_append_cases h2 with g1 | g2 | ⟨u₁, u₂, geq, gne1, gne2, _, gpfx⟩
    · exact hmsg g1
    · exact hsuf g2
    · have hdrop : t.drop u₁.length = u₂ := by
        rw [← geq]; exact List.drop_left _ _
      have h0 : 0 < u₁.length := List.length_pos.mpr gne1
      have hlt : u₁.length < t.length := by
        have h2pos : 0 < u₂.length := List.length_pos.mpr gne2
        have : u₁.length + u₂.length = t.length := by
          rw [← geq, List.length_append]
        omega
      exact hd u₁.length hlt h0 (by rw [hdrop]; exact gpfx)
  · have htake : t.take t₁.length = t₁ := by
      rw [← heq]; exact List.take_left _ _
    have h0 : 0 < t₁.length := List.length_pos.mpr hne1
    have hle : t₁.length < t.length + 1 := by
      have : t₁.length ≤ t.length := by
        rw [← heq, List.length_append]; omega
      omega
    exact hc t₁.length hle h0 (by rw [htake]; exact hsfx)

/-- Reducing `runCode` when the engine rejects the source. -/
theorem runCode_of_error {engine : Engine} {s : HomeState} {err : ThrownValue}
    (h : engine s.code babelConfig = Except.error err) :
    runCode engine s =
      { s with output := errorDocument (errorMessageOf err), isCompiling := false } := by
  have h' : engine ({ s with isCompiling := true } : HomeState).code babelConfig =
      Except.error err := h
  simp only [runCode, runCodeBody, runCodeFinally, h']

/-- Reducing `runCode` when the engine accepts the source. -/
theorem runCode_of_ok {engine : Engine} {s : HomeState} {c : String}
    (h : engine s.code babelConfig = Except.ok c) :
    runCode engine s =
      { s with output := iframeContent c, isCompiling := false } := by
  have h' : engine ({ s with isCompiling := true } : HomeState).code babelConfig =
      Except.ok c := h
  simp only [runCode, runCodeBody, runCodeFinally, h']

/-- Character-list view of the error-shaped document. -/
theorem errorDocument_data (m : String) :
    (errorDocument m).data = errDocPre.data ++ (m.data ++ errDocSuf.data) := by
  simp [errorDocument, String.data_append, List.append_assoc]

/-- Character-list view of the success-shaped document. -/
theorem iframeContent_data (c : String) :
    (iframeContent c).data = docPre.data ++ (c.data ++ docSuf.data) := by
  simp [iframeContent, String.data_append, List.append_assoc]

/-- The try body always leaves the status flag raised. -/
theorem runCodeBody_isCompiling (engine : Engine) (s : HomeState) :
    (runCodeBody engine s).isCompiling = true := by
  simp only [runCodeBody]
  cases engine ({ s with isCompiling := true } : HomeState).code babelConfig <;> rfl

/-! ## Claims -/

/-- C3: after every execution of the compile procedure — whether the
transformation step succeeds or throws — the `isCompiling` flag is back to
`false`; the transition runs through the unconditional `finally` cleanup
(`runCodeFinally`), which no thrown error can skip. -/
theorem status_returns_to_idle (engine : Engine) (s : HomeState) :
    (runCode engine s).isCompiling = false ∧
    runCode engine s = runCodeFinally (runCodeBody engine s) ∧
    (∀ s' : HomeState, (runCodeFinally s').isCompiling = false) :=
  ⟨rfl, rfl, fun _ => rfl⟩

/-- C5: every published document is handed to the preview `iframe` with the
sandbox attribute exactly `allow-scripts`; in particular `allow-same-origin`
never appears in it, for success-shaped and error-shaped documents alike. -/
theorem sandbox_allow_scripts_only (output : String) :
    (previewFrame output).sandbox = "allow-scripts" ∧
    ¬ strContains (previewFrame output).sandbox "allow-same-origin" ∧
    (previewFrame output).srcDoc = output := by
  refine ⟨rfl, ?_, rfl⟩
  show ¬ ("allow-same-origin").data <:+: ("allow-scripts").data
  decide

/-- C10: the compile procedure is deterministic in the source buffer: two
executions over states holding the same source text publish identical
output documents. -/
theorem compile_deterministic_in_source (engine : Engine) (s₁ s₂ : HomeState)
    (h : s₁.code = s₂.code) :
    (runCode engine s₁).output = (runCode engine s₂).output := by
  cases hc : engine s₁.code babelConfig with
  | ok c =>
      have hc2 : engine s₂.code babelConfig = Except.ok c := h ▸ hc
      rw [runCode_of_ok hc, runCode_of_ok hc2]
  | error e =>
      have hc2 : engine s₂.code babelConfig = Except.error e := h ▸ hc
      rw [runCode_of_error hc, runCode_of_error hc2]

/-- Witness for C10 at a concrete engine and two states sharing a source. -/
theorem compile_deterministic_in_source_witness :
    (runCode okEngine ⟨"x", "", false⟩).output =
      (runCode okEngine ⟨"x", "stale", true⟩).output :=
  compile_deterministic_in_source okEngine ⟨"x", "", false⟩ ⟨"x", "stale", true⟩ rfl

/-- C9: the compile procedure is total: for every engine outcome and state
(the empty source included) it publishes one nonempty output document,
success-shaped or error-shaped; and the editor `onChange` coercion
(`value || ''`) never stores a missing value. -/
theorem compile_total_output (engine : Engine) (s : HomeState) :
    0 < (runCode engine s).output.length ∧
    ((∃ c, engine s.code babelConfig = Except.ok c ∧
        (runCode engine s).output = iframeContent c) ∨
     (∃ e, engine s.code babelConfig = Except.error e ∧
        (runCode engine s).output = errorDocument (errorMessageOf e))) ∧
    (∀ v : Option String, onChangeValue v = v.getD "") := by
  have hshape :
      (∃ c, engine s.code babelConfig = Except.ok c ∧
          (runCode engine s).output = iframeContent c) ∨
      (∃ e, engine s.code babelConfig = Except.error e ∧
          (runCode engine s).output = errorDocument (errorMessageOf e)) := by
    cases hc : engine s.code babelConfig with
    | ok c => exact Or.inl ⟨c, rfl, by rw [runCode_of_ok hc]⟩
    | error e => exact Or.inr ⟨e, rfl, by rw [runCode_of_error hc]⟩
  refine ⟨?_, hshape, ?_⟩
  · have hdp : 0 < docPre.length := by decide
    rcases hshape with ⟨c, _, hout⟩ | ⟨e, _, hout⟩
    · rw [hout]
      simp only [iframeContent, String.length_append]
      omega
    · have hep : 0 < errDocPre.length := by decide
      rw [hout]
      simp only [errorDocument, String.length_append]
      omega
  · intro v
    cases v with
    | none => rfl
    | some t =>
        by_cases ht : t = "" <;> simp [onChangeValue, ht]

/-- C4: the manual Compile trigger is a no-op whenever the status flag is
raised (`disabled=\x7bisCompiling\x7d`): a second click landing while the
first click's compile body is running changes nothing and adds no execution,
so two clicks in immediate succession yield exactly one execution. -/
theorem manual_trigger_noop_while_compiling (engine : Engine) (s : HomeState)
    (n : Nat) (h : s.isCompiling = false) :
    (∀ (s' : HomeState) (m : Nat), s'.isCompiling = true →
        clickCompile engine s' m = (s', m)) ∧
    (runCodeBody engine s).isCompiling = true ∧
    clickCompile engine (runCodeBody engine s) n = (runCodeBody engine s, n) ∧
    clickCompile engine s n = (runCode engine s, n + 1) := by
  refine ⟨fun s' m h' => by simp [clickCompile, h'],
    runCodeBody_isCompiling engine s,
    by simp [clickCompile, runCodeBody_isCompiling],
    by simp [clickCompile, h]⟩

/-- Witness for C4: two immediate clicks from an idle state, the second one
landing mid-compile, count exactly one execution. -/
theorem manual_trigger_noop_while_compiling_witness :
    clickCompile okEngine (runCodeBody okEngine ⟨"x", "", false⟩) 1
        = (runCodeBody okEngine ⟨"x", "", false⟩, 1) ∧
    clickCompile okEngine ⟨"x", "", false⟩ 0 = (runCode okEngine ⟨"x", "", false⟩, 1) :=
  ⟨(manual_trigger_noop_while_compiling okEngine ⟨"x", "", false⟩ 1 rfl).2.2.1,
   (manual_trigger_noop_while_compiling okEngine ⟨"x", "", false⟩ 0 rfl).2.2.2⟩

/-- C7: every compile attempt consults the engine only through
`transform(sourceText, \x7b presets: [\x27react\x27, \x27env\x27] \x7d)`:
the configuration is exactly the two fixed presets, the result of `runCode`
depends on the engine only through that single call, and the call either
yields a code string or throws. -/
theorem transform_fixed_presets (e₁ e₂ : Engine) (s : HomeState) :
    babelConfig.presets = ["react", "env"] ∧
    (e₁ s.code babelConfig = e₂ s.code babelConfig →
        runCode e₁ s = runCode e₂ s) ∧
    ((∃ c, e₁ s.code babelConfig = Except.ok c ∧
        (runCode e₁ s).output = iframeContent c) ∨
     (∃ err, e₁ s.code babelConfig = Except.error err ∧
        (runCode e₁ s).output = errorDocument (errorMessageOf err))) := by
  refine ⟨rfl, ?_, ?_⟩
  · intro h
    cases hc : e₁ s.code babelConfig with
    | ok c =>
        have hc2 : e₂ s.code babelConfig = Except.ok c := h.symm.trans hc
        rw [runCode_of_ok hc, runCode_of_ok hc2]
    | error err =>
        have hc2 : e₂ s.code babelConfig = Except.error err := h.symm.trans hc
        rw [runCode_of_error hc, runCode_of_error hc2]
  · cases hc : e₁ s.code babelConfig with
    | ok c => exact Or.inl ⟨c, rfl, by rw [runCode_of_ok hc]⟩
    | error err => exact Or.inr ⟨err, rfl, by rw [runCode_of_error hc]⟩

/-- Witness for C7 at a concrete engine pair agreeing on the single call. -/
theorem transform_fixed_presets_witness :
    runCode okEngine ⟨"x", "", false⟩ = runCode okEngine ⟨"x", "", false⟩ ∧
    babelConfig.presets = ["react", "env"] :=
  ⟨(transform_fixed_presets okEngine okEngine ⟨"x", "", false⟩).2.1 rfl,
   (transform_fixed_presets okEngine okEngine ⟨"x", "", false⟩).1⟩

/-- C8: when the compile procedure catches a thrown value, the displayed
message is the thrown value's own message when it is an `Error` instance and
the generic fallback otherwise, and the published document renders it as
preformatted text inside the red-styled error block. -/
theorem caught_error_message_display (engine : Engine) (s : HomeState)
    (err : ThrownValue) (h : engine s.code babelConfig = Except.error err) :
    (runCode engine s).output = errorDocument (errorMessageOf err) ∧
    (∀ m : String, errorMessageOf (ThrownValue.errorInstance m) = m) ∧
    errorMessageOf ThrownValue.otherValue = "An unknown error occurred" ∧
    strContains (runCode engine s).output
      ("<pre>" ++ errorMessageOf err ++ "</pre>") ∧
    strContains (runCode engine s).output "color: red" := by
  have hout : (runCode engine s).output = errorDocument (errorMessageOf err) := by
    rw [runCode_of_error h]
  refine ⟨hout, fun _ => rfl, rfl, ?_, ?_⟩
  · rw [hout]
    show ("<pre>" ++ errorMessageOf err ++ "</pre>").data <:+:
      (errorDocument (errorMessageOf err)).data
    have hsplit : (errorDocument (errorMessageOf err)).data
        = errDocPreHead.data ++
            (("<pre>" ++ errorMessageOf err ++ "</pre>").data ++ errDocSufTail.data) := by
      have e1 : errDocPre = errDocPreHead ++ "<pre>" := rfl
      have e2 : errDocSuf = "</pre>" ++ errDocSufTail := rfl
      simp only [errorDocument, e1, e2, String.data_append, List.append_assoc]
    rw [hsplit]
    exact occurs_middle _ _ _
  · rw [hout]
    show ("color: red").data <:+: (errorDocument (errorMessageOf err)).data
    rw [errorDocument_data]
    exact occurs_append_left (by decide)

/-- Witness for C8: a thrown `Error` carrying a concrete message. -/
theorem caught_error_message_display_witness :
    (runCode (errEngine (ThrownValue.errorInstance "boom")) ⟨"x", "", false⟩).output
      = errorDocument (errorMessageOf (ThrownValue.errorInstance "boom")) :=
  (caught_error_message_display (errEngine (ThrownValue.errorInstance "boom"))
    ⟨"x", "", false⟩ (ThrownValue.errorInstance "boom") rfl).1

/-- C1: whenever the engine rejects the source (the transform throws), the
compile procedure publishes the error-shaped document: it contains the
literal `Error:` and the thrown error's message text, and — while every
success-shaped document carries all three runtime bootstrap script tags —
the error-shaped document carries none of them (its fixed template
contributes no occurrence beyond what the message text itself might spell
out). -/
theorem compileFailure_error_document (engine : Engine) (s : HomeState)
    (err : ThrownValue) (h : engine s.code babelConfig = Except.error err) :
    strContains (runCode engine s).output "Error:" ∧
    strContains (runCode engine s).output (errorMessageOf err) ∧
    (∀ m ∈ bootstrapScriptTags, ∀ c : String, strContains (iframeContent c) m) ∧
    (∀ m ∈ bootstrapScriptTags, ¬ strContains (errorMessageOf err) m →
        ¬ strContains (runCode engine s).output m) := by
  have hout : (runCode engine s).output = errorDocument (errorMessageOf err) := by
    rw [runCode_of_error h]
  refine ⟨?_, ?_, ?_, ?_⟩
  · rw [hout]
    show ("Error:").data <:+: (errorDocument (errorMessageOf err)).data
    rw [errorDocument_data]
    exact occurs_append_left (by decide)
  · rw [hout]
    show (errorMessageOf err).data <:+: (errorDocument (errorMessageOf err)).data
    rw [errorDocument_data]
    exact occurs_middle _ _ _
  · intro m hm c
    show m.data <:+: (iframeContent c).data
    rw [iframeContent_data]
    apply occurs_append_left
    fin_cases hm <;> decide
  · intro m hm hmsg
    rw [hout]
    show ¬ m.data <:+: (errorDocument (errorMessageOf err)).data
    rw [errorDocument_data]
    fin_cases hm <;>
      exact sandwich_free hmsg (by decide) (by decide) (by decide) (by decide)

/-- Witness for C1: a concrete rejecting engine; the published document shows
the `Error:` heading. -/
theorem compileFailure_error_document_witness :
    strContains
      (runCode (errEngine (ThrownValue.errorInstance "bad token")) ⟨"x", "", false⟩).output
      "Error:" :=
  (compileFailure_error_document (errEngine (ThrownValue.errorInstance "bad token"))
    ⟨"x", "", false⟩ (ThrownValue.errorInstance "bad token") rfl).1

/-- C6: the success-shaped document wraps the transpiled code in a fixed
template: the head loads the versioned UI runtime, its DOM-binding companion
and the in-sandbox copy of the transformation engine, and declares the
container `<div id="root">`; the code sits inside the `text/babel` script
element that the sandbox's Babel re-lowers; and the script tail mounts the
single conventional entry point `App` into the element with id `root`. -/
theorem success_document_structure (c : String) :
    iframeContent c = docPre ++ c ++ docSuf ∧
    docPre = docPreHead ++ (scriptBabelOpen ++ docPreBoot) ∧
    docSuf = docSufBody ++ ("</script>" ++ docSufClose) ∧
    scriptBabelOpen = "<script type=\"text/babel\">" ∧
    (∀ m ∈ bootstrapScriptTags, strContains docPreHead m) ∧
    strContains docPreHead "<div id=\"root\"></div>" ∧
    strContains docSufBody
      "const root = ReactDOM.createRoot(document.getElementById(\x27root\x27));" ∧
    strContains docSufBody "root.render(<App />);" := by
  refine ⟨rfl, rfl, rfl, rfl, ?_, ?_, ?_, ?_⟩
  · intro m hm
    fin_cases hm <;> decide
  · decide
  · decide
  · decide

/-- While edits keep arriving less than 1000ms apart, the pending timer never
fires: the state just tracks the latest text and deadline. -/
theorem runEdits_quiet (engine : Engine) :
    ∀ (rest : List (Nat × String)) (t : Nat) (h : HomeState) (E : List String),
      gapsOk t rest = true →
      runEdits engine rest ⟨h, some (t + 1000), E⟩ =
        ⟨{ h with code := (lastEdit (t, h.code) rest).2 },
          some ((lastEdit (t, h.code) rest).1 + 1000), E⟩
  | [], _, _, _, _ => rfl
  | (t1, x1) :: r, t, h, E, hg => by
      have hg' : t1 < t + 1000 ∧ gapsOk t1 r = true := by
        simpa [gapsOk] using hg
      have hnle : ¬ (t + 1000 ≤ t1) := by omega
      have happ : applyEdit engine t1 x1 ⟨h, some (t + 1000), E⟩ =
          ⟨{ h with code := x1 }, some (t1 + 1000), E⟩ := by
        simp [applyEdit, fireIfDue, hnle]
      show runEdits engine r (applyEdit engine t1 x1 ⟨h, some (t + 1000), E⟩) = _
      rw [happ]
      exact runEdits_quiet engine r t1 { h with code := x1 } E hg'.2

/-- C2: for a sequence of buffer updates each less than the 1000ms quiet
period after the previous one, exactly one compile procedure executes and it
operates on the text of the last update; each update arms a fresh 1000ms
timer (cancelling the pending one), so only the most recent timer fires. -/
theorem debounce_single_compile_last_text (engine : Engine) (t1 : Nat)
    (x1 : String) (rest : List (Nat × String)) (h0 : HomeState)
    (hg : gapsOk t1 rest = true) :
    (flushTimer engine
        (runEdits engine ((t1, x1) :: rest) ⟨h0, none, []⟩)).execs
      = [(lastEdit (t1, x1) rest).2] ∧
    (flushTimer engine
        (runEdits engine ((t1, x1) :: rest) ⟨h0, none, []⟩)).home
      = runCode engine { h0 with code := (lastEdit (t1, x1) rest).2 } ∧
    (∀ (t : Nat) (txt : String) (s : SchedState),
        (applyEdit engine t txt s).timer = some (t + 1000)) := by
  have h1 : runEdits engine ((t1, x1) :: rest) ⟨h0, none, []⟩
      = runEdits engine rest ⟨{ h0 with code := x1 }, some (t1 + 1000), []⟩ := rfl
  have h2 := runEdits_quiet engine rest t1 { h0 with code := x1 } [] hg
  refine ⟨?_, ?_, fun _ _ _ => rfl⟩
  · rw [h1, h2]; rfl
  · rw [h1, h2]; rfl

/-- Witness for C2: three rapid edits, one compile, on the last text. -/
theorem debounce_single_compile_last_text_witness :
    (flushTimer okEngine
        (runEdits okEngine [(0, "a"), (500, "b"), (900, "c")]
          ⟨⟨"", "", false⟩, none, []⟩)).execs = ["c"] :=
  (debounce_single_compile_last_text okEngine 0 "a" [(500, "b"), (900, "c")]
    ⟨"", "", false⟩ (by decide)).1

end Playground
